import Mathlib

/-!
Verification of the IPv4 Configuration Aggregate (`nm-ip4-config.c`) of
NetworkManager: a shallow embedding of the aggregate's data model and of the
operations `add_address`, `add_route`, `merge`, `subtract`, `capture`,
`commit` (route stage), `set_mtu`, the content hash behind `equal`, and the
relevant-change classification of `replace`, together with theorems settling
the frozen claims about them.

Machine integers (`guint32`, `in_addr_t`) are modelled as `Nat`; the code
performs no wrapping arithmetic on them, only comparisons and copies, except
where noted (the byte-order swap `ntohl` and the byte serialisation of the
content hash, which are modelled explicitly).
-/

/-- Modelled from the spec: the source priority enum is an ordered total
order `unknown < kernel-observed < dhcp < link-local < user-specified`
(`NMIPConfigSource` is declared outside the sources at hand). It is embedded
as `Nat` so that `<`, `=` and `max` on sources are the C comparisons. -/
def NM_IP_CONFIG_SOURCE_UNKNOWN : Nat := 0

/-- Modelled from the spec: the kernel-observed source priority. -/
def NM_IP_CONFIG_SOURCE_KERNEL : Nat := 1

/-- Modelled from the spec: the dhcp source priority. -/
def NM_IP_CONFIG_SOURCE_DHCP : Nat := 2

/-- Modelled from the spec: the link-local source priority. -/
def NM_IP_CONFIG_SOURCE_IP4LL : Nat := 3

/-- Modelled from the spec: the user-specified source priority. -/
def NM_IP_CONFIG_SOURCE_USER : Nat := 4

/-- Modelled from the spec: lifetimes are "seconds-or-permanent";
`NM_PLATFORM_LIFETIME_PERMANENT` is the all-ones 32-bit sentinel. -/
def NM_PLATFORM_LIFETIME_PERMANENT : Nat := 4294967295

/-- `NMPlatformIP4Address`: the identity fields (`address`, `plen`) are from
the platform header; the metadata fields (`timestamp`, `lifetime`,
`preferred`, `label`, `source`) are the ones `nm-ip4-config.c` reads and
writes, with their meaning as in the spec's data model. The owning link
index is omitted: none of the aggregate operations consult it. -/
structure NMPlatformIP4Address where
  address : Nat
  plen : Nat
  timestamp : Nat
  lifetime : Nat
  preferred : Nat
  label : String
  source : Nat
deriving DecidableEq

/-- `NMPlatformIP4Route`: destination `network`, `plen`, next-hop `gateway`,
`metric` from the platform header, plus the `source` priority used by
`nm-ip4-config.c`. The owning link index is omitted as unused here. -/
structure NMPlatformIP4Route where
  network : Nat
  plen : Nat
  gateway : Nat
  metric : Nat
  source : Nat
deriving DecidableEq

/-- The private state of an `NMIP4Config` (the Configuration Aggregate):
mirror of `NMIP4ConfigPrivate`. The D-Bus `path` is omitted (pure export
bookkeeping). `nis_domain` is an `Option` because the C field is a possibly
NULL string. -/
structure NMIP4Config where
  never_default : Bool
  gateway : Nat
  addresses : List NMPlatformIP4Address
  routes : List NMPlatformIP4Route
  nameservers : List Nat
  domains : List String
  searches : List String
  mss : Nat
  nis : List Nat
  nis_domain : Option String
  wins : List Nat
  mtu : Nat
  mtu_source : Nat
deriving DecidableEq

/-- `nm_ip4_config_new`: a fresh aggregate is empty everywhere. -/
def nm_ip4_config_new : NMIP4Config :=
  { never_default := false
    gateway := 0
    addresses := []
    routes := []
    nameservers := []
    domains := []
    searches := []
    mss := 0
    nis := []
    nis_domain := none
    wins := []
    mtu := 0
    mtu_source := NM_IP_CONFIG_SOURCE_UNKNOWN }

/-- Generic in-place collision update used by the `add_*` loops of the C
code: scan for the first element whose key `k` collides with the key of the
new element; fuse the stored element with the new one in place; if no
element collides, append the new element at the end. -/
def upsert {α : Type} {κ : Type} [DecidableEq κ] (k : α → κ)
    (fuse : α → α → α) : List α → α → List α
  | [], x => [x]
  | y :: ys, x => if k y = k x then fuse y x :: ys else y :: upsert k fuse ys x

/-- Remove the first element satisfying `p` (the `del`-and-`break` pattern of
`nm_ip4_config_subtract`); if none does, the list is unchanged. -/
def removeFirstBy {α : Type} (p : α → Bool) : List α → List α
  | [] => []
  | y :: ys => if p y then ys else y :: removeFirstBy p ys

/-- Modelled from the spec: the computed expiry of an address record
(`nm_platform_ip_address_cmp_expiry` is declared outside the sources at
hand). A permanent lifetime never expires (`none`); otherwise the expiry is
the creation instant plus the lifetime. -/
def addrExpiry (a : NMPlatformIP4Address) : Option Nat :=
  if a.lifetime = NM_PLATFORM_LIFETIME_PERMANENT then none
  else some (a.timestamp + a.lifetime)

/-- Modelled from the spec: `expiryGT a b` holds when `a`'s computed expiry
is strictly later than `b`'s (a never-expiring record is later than any
finite expiry). -/
def expiryGT (a b : NMPlatformIP4Address) : Bool :=
  match addrExpiry a, addrExpiry b with
  | none, none => false
  | none, some _ => true
  | some _, none => false
  | some x, some y => decide (y < x)

/-- The collision body of `nm_ip4_config_add_address`: the stored item is
overwritten by `new`, the surviving source is the maximum of the two, and
the old timestamp/lifetime/preferred are restored when the new record is
kernel-observed with a different old source, or when the old record's
computed expiry is strictly later than the new one's. -/
def fuseAddress (old new : NMPlatformIP4Address) : NMPlatformIP4Address :=
  if (new.source == NM_IP_CONFIG_SOURCE_KERNEL && !(new.source == old.source))
      || expiryGT old new then
    { new with source := max old.source new.source,
               timestamp := old.timestamp, lifetime := old.lifetime,
               preferred := old.preferred }
  else { new with source := max old.source new.source }

/-- The list-level body of `nm_ip4_config_add_address`: duplicates are
detected by `addresses_are_duplicate (item, new, FALSE)`, i.e. by the
`address` value alone (the prefix length is not considered). -/
def address_add (l : List NMPlatformIP4Address) (new : NMPlatformIP4Address) :
    List NMPlatformIP4Address :=
  upsert (fun a => a.address) fuseAddress l new

/-- `nm_ip4_config_add_address`. -/
def nm_ip4_config_add_address (c : NMIP4Config) (new : NMPlatformIP4Address) :
    NMIP4Config :=
  { c with addresses := address_add c.addresses new }

/-- The collision body of `nm_ip4_config_add_route`: the whole record is
overwritten by `new` and the highest-priority source is restored. -/
def fuseRoute (old new : NMPlatformIP4Route) : NMPlatformIP4Route :=
  { new with source := max old.source new.source }

/-- The list-level body of `nm_ip4_config_add_route`: the
`g_return_if_fail (new->plen > 0)` precondition makes a zero-prefix route a
no-op; duplicates are detected by `routes_are_duplicate (item, new, FALSE)`,
i.e. by `(network, plen)`. -/
def route_add (l : List NMPlatformIP4Route) (new : NMPlatformIP4Route) :
    List NMPlatformIP4Route :=
  if 0 < new.plen then upsert (fun r => (r.network, r.plen)) fuseRoute l new else l

/-- `nm_ip4_config_add_route`. -/
def nm_ip4_config_add_route (c : NMIP4Config) (new : NMPlatformIP4Route) :
    NMIP4Config :=
  { c with routes := route_add c.routes new }

/-- The list-level body of `nm_ip4_config_add_nameserver` and
`nm_ip4_config_add_wins`: a zero value is rejected by `g_return_if_fail`,
a value already present is ignored, otherwise it is appended. -/
def u32_list_add (l : List Nat) (new : Nat) : List Nat :=
  if new = 0 then l else upsert (fun v => v) (fun old _ => old) l new

/-- The list-level body of `nm_ip4_config_add_nis_server`: like the other
value lists but without any zero guard. -/
def nis_list_add (l : List Nat) (new : Nat) : List Nat :=
  upsert (fun v => v) (fun old _ => old) l new

/-- The list-level body of `nm_ip4_config_add_domain` and
`nm_ip4_config_add_search`: the empty string is rejected by
`g_return_if_fail`, a string already present is ignored, otherwise it is
appended. -/
def str_list_add (l : List String) (new : String) : List String :=
  if new = "" then l else upsert (fun v => v) (fun old _ => old) l new

/-- `nm_ip4_config_set_mtu`: a strictly higher-priority source overwrites the
MTU and its source; at equal priority the MTU is overwritten only when the
stored MTU is zero or strictly greater than the new value; a lower-priority
source changes nothing. -/
def nm_ip4_config_set_mtu (c : NMIP4Config) (mtu source : Nat) : NMIP4Config :=
  if c.mtu_source < source then { c with mtu := mtu, mtu_source := source }
  else if source = c.mtu_source ∧ (c.mtu = 0 ∨ mtu < c.mtu) then { c with mtu := mtu }
  else c

/-- `ntohl` on a little-endian host: the 32-bit byte swap performed by
`same_prefix` before shifting. -/
def ntohl (x : Nat) : Nat :=
  (x % 256) * 16777216 + (x / 256 % 256) * 65536 + (x / 65536 % 256) * 256
    + (x / 16777216 % 256)

/-- `same_prefix`: both addresses are byte-swapped to host order and compared
after dropping the host bits. -/
def same_prefix (address1 address2 : Nat) (plen : Nat) : Bool :=
  ntohl address1 >>> (32 - plen) == ntohl address2 >>> (32 - plen)

/-- `nm_ip4_config_destination_is_direct`: some address of the aggregate has
a prefix length at most `plen` and the same masked network as `network`. -/
def nm_ip4_config_destination_is_direct (c : NMIP4Config) (network plen : Nat) :
    Bool :=
  c.addresses.any fun item =>
    decide (item.plen ≤ plen) && same_prefix item.address network item.plen

/-- The route list `nm_ip4_config_commit` hands to
`nm_platform_ip4_route_sync`: routes with a zero gateway whose destination is
already covered by an on-link subnet of one of the aggregate's addresses are
skipped. -/
def nm_ip4_config_commit_routes (c : NMIP4Config) : List NMPlatformIP4Route :=
  c.routes.filter fun route =>
    !(route.gateway == 0 &&
      nm_ip4_config_destination_is_direct c route.network route.plen)

/-- `nm_ip4_config_merge`: additive union into `dst`. Lists are folded through
the `add_*` primitives in source order; `gateway`, `mss` and `mtu` are only
touched when `dst`'s value is zero (the MTU going through `set_mtu`, whose
only inputs are the mtu fields, untouched by the earlier steps);
`nis_domain` is copied whenever `src`'s is non-NULL. -/
def nm_ip4_config_merge (dst src : NMIP4Config) : NMIP4Config :=
  { dst with
    addresses := List.foldl address_add dst.addresses src.addresses
    nameservers := List.foldl u32_list_add dst.nameservers src.nameservers
    gateway := if dst.gateway = 0 then src.gateway else dst.gateway
    routes := List.foldl route_add dst.routes src.routes
    domains := List.foldl str_list_add dst.domains src.domains
    searches := List.foldl str_list_add dst.searches src.searches
    mss := if dst.mss = 0 then src.mss else dst.mss
    mtu := if dst.mtu = 0 then (nm_ip4_config_set_mtu dst src.mtu src.mtu_source).mtu
           else dst.mtu
    mtu_source := if dst.mtu = 0 then
             (nm_ip4_config_set_mtu dst src.mtu src.mtu_source).mtu_source
           else dst.mtu_source
    nis := List.foldl nis_list_add dst.nis src.nis
    nis_domain := if src.nis_domain.isSome then src.nis_domain else dst.nis_domain
    wins := List.foldl u32_list_add dst.wins src.wins }

/-- `nm_ip4_config_subtract`: set difference. Each entry of `src` removes the
first entry of `dst` with the same identity; scalars equal to `src`'s value
are reset (the MTU through `set_mtu` with source `UNKNOWN`); the gateway is
also forced to zero when no address remains after the address removal. -/
def nm_ip4_config_subtract (dst src : NMIP4Config) : NMIP4Config :=
  let addrs := List.foldl
    (fun acc a => removeFirstBy
      (fun d => a.address == d.address && a.plen == d.plen) acc)
    dst.addresses src.addresses
  { dst with
    addresses := addrs
    nameservers := List.foldl
      (fun acc n => removeFirstBy (fun d => d == n) acc)
      dst.nameservers src.nameservers
    gateway := if addrs.length = 0 then 0
               else if src.gateway = dst.gateway then 0 else dst.gateway
    routes := List.foldl
      (fun acc r => removeFirstBy
        (fun d => r.network == d.network && r.plen == d.plen) acc)
      dst.routes src.routes
    domains := List.foldl
      (fun acc x => removeFirstBy (fun d => d == x) acc)
      dst.domains src.domains
    searches := List.foldl
      (fun acc x => removeFirstBy (fun d => d == x) acc)
      dst.searches src.searches
    mss := if src.mss = dst.mss then 0 else dst.mss
    mtu := if src.mtu = dst.mtu then
        (nm_ip4_config_set_mtu dst 0 NM_IP_CONFIG_SOURCE_UNKNOWN).mtu
      else dst.mtu
    mtu_source := if src.mtu = dst.mtu then
        (nm_ip4_config_set_mtu dst 0 NM_IP_CONFIG_SOURCE_UNKNOWN).mtu_source
      else dst.mtu_source
    nis := List.foldl
      (fun acc n => removeFirstBy (fun d => d == n) acc)
      dst.nis src.nis
    nis_domain := if src.nis_domain = dst.nis_domain then none else dst.nis_domain
    wins := List.foldl
      (fun acc n => removeFirstBy (fun d => d == n) acc)
      dst.wins src.wins }

/-- The four bytes `hash_u32` feeds to the checksum: the in-memory
little-endian representation of the `guint32`. -/
def hashU32 (n : Nat) : List Nat :=
  [n % 256, n / 256 % 256, n / 65536 % 256, n / 16777216 % 256]

/-- The bytes of a string as fed to the checksum (`g_checksum_update` with
`strlen`); code points model the bytes, which coincides for the ASCII data
at hand. -/
def strBytes (s : String) : List Nat :=
  s.data.map Char.toNat

/-- `nm_ip4_config_hash` with `dns_only = FALSE`: the exact byte stream the
code feeds to the SHA1 checksum — gateway, addresses' `(address, plen)`,
routes' `(network, plen, gateway, metric)`, NIS servers, NIS domain,
nameservers, WINS, domains, searches, concatenated with no delimiters. -/
def nm_ip4_config_hash (c : NMIP4Config) : List Nat :=
  hashU32 c.gateway
  ++ (c.addresses.map fun a => hashU32 a.address ++ hashU32 a.plen).flatten
  ++ (c.routes.map fun r =>
        hashU32 r.network ++ hashU32 r.plen ++ hashU32 r.gateway
          ++ hashU32 r.metric).flatten
  ++ (c.nis.map hashU32).flatten
  ++ (match c.nis_domain with | some s => strBytes s | none => [])
  ++ (c.nameservers.map hashU32).flatten
  ++ (c.wins.map hashU32).flatten
  ++ (c.domains.map strBytes).flatten
  ++ (c.searches.map strBytes).flatten

/-- `nm_ip4_config_equal`: both configurations are hashed and the digests
compared; SHA1 is modelled as injective on the input stream, so equality of
digests is equality of the hashed byte streams. -/
def nm_ip4_config_equal (a b : NMIP4Config) : Bool :=
  nm_ip4_config_hash a == nm_ip4_config_hash b

/-- `addresses_are_duplicate` with `consider_plen = TRUE`: the test
`nm_ip4_config_replace` uses to downgrade an address difference to minor. -/
def addr_pair_minor (s d : NMPlatformIP4Address) : Bool :=
  s.address == d.address && s.plen == d.plen

/-- `routes_are_duplicate` with `consider_gateway_and_metric = TRUE`: the
test `nm_ip4_config_replace` uses to downgrade a route difference to minor. -/
def route_pair_minor (s d : NMPlatformIP4Route) : Bool :=
  s.network == d.network && s.plen == d.plen && s.gateway == d.gateway
    && s.metric == d.metric

/-- The `has_relevant_changes` out-value of `nm_ip4_config_replace (dst, src)`:
a differing gateway, a length difference or identity difference in the
address or route sequences, or any difference in the nameserver, domain,
search, NIS, NIS-domain or WINS fields is relevant; `never_default`, MSS,
MTU and metadata-only address/route differences are minor. -/
def nm_ip4_config_replace_relevant (dst src : NMIP4Config) : Bool :=
  !(src.gateway == dst.gateway)
  || !(src.addresses.length == dst.addresses.length)
  || (src.addresses.zip dst.addresses).any (fun p => !(addr_pair_minor p.1 p.2))
  || !(src.routes.length == dst.routes.length)
  || (src.routes.zip dst.routes).any (fun p => !(route_pair_minor p.1 p.2))
  || !(src.nameservers == dst.nameservers)
  || !(src.domains == dst.domains)
  || !(src.searches == dst.searches)
  || !(src.nis == dst.nis)
  || !(src.nis_domain == dst.nis_domain)
  || !(src.wins == dst.wins)

/-- Accumulator of the default-route extraction loop of
`nm_ip4_config_capture`: current gateway, lowest default metric seen, whether
a default route was seen, and the retained (non-default) routes in order. -/
structure CapScan where
  gw : Nat
  lowest : Nat
  has_gateway : Bool
  kept : List NMPlatformIP4Route
deriving DecidableEq

/-- The default-route extraction loop of `nm_ip4_config_capture`: a default
route (plen 0) updates the gateway when its metric is strictly below the
lowest seen, marks that a gateway exists, and is dropped from the list;
other routes are retained in order. -/
def capture_scan : List NMPlatformIP4Route → Nat → Nat → Bool → CapScan
  | [], gw, low, has => { gw := gw, lowest := low, has_gateway := has, kept := [] }
  | r :: rs, gw, low, has =>
    if r.plen = 0 then
      if r.metric < low then capture_scan rs r.gateway r.metric true
      else capture_scan rs gw low true
    else
      let t := capture_scan rs gw low has
      { t with kept := r :: t.kept }

/-- `nm_ip4_config_capture`, with the platform inputs passed explicitly: the
link's master index, its address and route lists, and the nameservers parsed
from `/etc/resolv.conf`. A slave link (positive master) yields nothing.
Defaults are extracted starting from gateway 0 and lowest metric
`G_MAXUINT32`; if any default was seen, remaining host routes to the chosen
gateway with no gateway of their own are stripped; resolv.conf nameservers
(zero entries skipped, duplicates ignored) are captured only when addresses
exist, a default was seen and DNS capture was requested. -/
def nm_ip4_config_capture_body (addrs : List NMPlatformIP4Address)
    (routes : List NMPlatformIP4Route) (resolv : List Nat)
    (capture_rc : Bool) : NMIP4Config :=
  let s := capture_scan routes 0 4294967295 false
  let kept := if s.has_gateway then
      s.kept.filter (fun r => !(r.plen == 32 && r.network == s.gw && r.gateway == 0))
    else s.kept
  let ns := if !addrs.isEmpty && s.has_gateway && capture_rc then
      resolv.foldl u32_list_add [] else []
  { nm_ip4_config_new with
    addresses := addrs, routes := kept, gateway := s.gw,
    nameservers := ns }

/-- `nm_ip4_config_capture` itself: a slave link (positive master index)
yields nothing; otherwise the body above runs. -/
def nm_ip4_config_capture (master : Int) (addrs : List NMPlatformIP4Address)
    (routes : List NMPlatformIP4Route) (resolv : List Nat)
    (capture_rc : Bool) : Option NMIP4Config :=
  if 0 < master then none
  else some (nm_ip4_config_capture_body addrs routes resolv capture_rc)

/-- A mutation of the aggregate by one of the two additive primitives the
identity-uniqueness claim ranges over. -/
inductive NMConfigOp where
  | addAddr (a : NMPlatformIP4Address)
  | addRoute (r : NMPlatformIP4Route)

/-- Apply one mutation. -/
def applyOp (c : NMIP4Config) : NMConfigOp → NMIP4Config
  | .addAddr a => nm_ip4_config_add_address c a
  | .addRoute r => nm_ip4_config_add_route c r

/-- Apply a sequence of mutations in order. -/
def applyOps (c : NMIP4Config) (ops : List NMConfigOp) : NMIP4Config :=
  ops.foldl applyOp c

/-- Address `10.0.0.5/24` as stored by the code: `in_addr_t` network byte
order read on a little-endian host, hence the value `0x0500000A`. -/
def exC5addr : NMPlatformIP4Address :=
  ⟨83886090, 24, 0, NM_PLATFORM_LIFETIME_PERMANENT, NM_PLATFORM_LIFETIME_PERMANENT,
   "", NM_IP_CONFIG_SOURCE_USER⟩

/-- Aggregate holding only `10.0.0.5/24`. -/
def exC5cfg : NMIP4Config := { nm_ip4_config_new with addresses := [exC5addr] }

/-- Route `10.0.0.0/24 via 0.0.0.0 metric 100` (network `0x0000000A`). -/
def exC5route : NMPlatformIP4Route := ⟨10, 24, 0, 100, NM_IP_CONFIG_SOURCE_USER⟩

/-- A stored route `5/24 via 1 metric 7` with source `link-local`. -/
def exC7old : NMPlatformIP4Route := ⟨5, 24, 1, 7, 3⟩

/-- Aggregate holding only `exC7old`. -/
def exC7cfg : NMIP4Config := { nm_ip4_config_new with routes := [exC7old] }

/-- A colliding route `5/24 via 9 metric 10` with the lower source `dhcp`. -/
def exC7new : NMPlatformIP4Route := ⟨5, 24, 9, 10, 2⟩

/-- A route with `plen = 0` (rejected by `add_route`). -/
def exC7zero : NMPlatformIP4Route := ⟨6, 0, 0, 0, 0⟩

/-- Aggregate with one nameserver `0.0.0.5` and nothing else. -/
def exC1dst : NMIP4Config := { nm_ip4_config_new with nameservers := [5] }

/-- Aggregate with one WINS server `0.0.0.5` and nothing else. -/
def exC1src : NMIP4Config := { nm_ip4_config_new with wins := [5] }

/-- Aggregate whose NIS domain is already the non-empty string "a". -/
def exC2dst : NMIP4Config := { nm_ip4_config_new with nis_domain := some "a" }

/-- Aggregate whose NIS domain is the non-empty string "b". -/
def exC2src : NMIP4Config := { nm_ip4_config_new with nis_domain := some "b" }

/-- A stored address `1/16` with lifetime 5 and source unknown. -/
def exA16 : NMPlatformIP4Address := ⟨1, 16, 0, 5, 0, "", 0⟩

/-- A stored address `1/24` with lifetime 5 and source unknown. -/
def exA24 : NMPlatformIP4Address := ⟨1, 24, 0, 5, 0, "", 0⟩

/-- Aggregate holding `1/16` before `1/24` (identity-unique: the two differ
in prefix length). -/
def exC4cfg : NMIP4Config := { nm_ip4_config_new with addresses := [exA16, exA24] }

/-- A new address `1/24` with lifetime 9: same `(address, plen)` identity as
`exA24` but different metadata. -/
def exC4new : NMPlatformIP4Address := ⟨1, 24, 0, 9, 0, "", 0⟩

/-- Aggregate holding only `exA24`. -/
def exW4cfg : NMIP4Config := { nm_ip4_config_new with addresses := [exA24] }

/-- A stored address with source unknown, lifetime 100. -/
def exX9 : NMPlatformIP4Address := ⟨1, 24, 0, 100, 0, "", 0⟩

/-- Aggregate holding only `exX9`. -/
def exC9cfg : NMIP4Config := { nm_ip4_config_new with addresses := [exX9] }

/-- A kernel-observed record for the same address, lifetime 200. -/
def exA9 : NMPlatformIP4Address := ⟨1, 24, 0, 200, 0, "", 1⟩

/-- A stored address with source dhcp, lifetime 100. -/
def exK9 : NMPlatformIP4Address := ⟨1, 24, 0, 100, 0, "", 2⟩

/-- Aggregate holding only `exK9`. -/
def exW9cfg : NMIP4Config := { nm_ip4_config_new with addresses := [exK9] }

/-- A default route with metric 100 and gateway 257. -/
def exD100 : NMPlatformIP4Route := ⟨0, 0, 257, 100, 0⟩

/-- A default route with metric 50 and gateway 514. -/
def exD50 : NMPlatformIP4Route := ⟨0, 0, 514, 50, 0⟩

/-- A default route whose metric equals the sentinel `G_MAXUINT32`. -/
def exDsent : NMPlatformIP4Route := ⟨0, 0, 7, 4294967295, 0⟩

/-- Aggregate with gateway 1, MSS 1, MTU 1 and no addresses. -/
def exC6A : NMIP4Config := { nm_ip4_config_new with gateway := 1, mss := 1, mtu := 1 }

/-- Aggregate with gateway 2, MSS 2, MTU 2 and no addresses. -/
def exC6B : NMIP4Config := { nm_ip4_config_new with gateway := 2, mss := 2, mtu := 2 }

/-- A permanent address with value 1. -/
def exAddrA : NMPlatformIP4Address :=
  ⟨1, 24, 0, 4294967295, 4294967295, "", 4⟩

/-- A permanent address with value 2. -/
def exAddrB : NMPlatformIP4Address :=
  ⟨2, 24, 0, 4294967295, 4294967295, "", 4⟩

/-- Aggregate A of the cancellation witness: disjoint from `exC6BW`
everywhere. -/
def exC6AW : NMIP4Config :=
  { nm_ip4_config_new with
    gateway := 1
    addresses := [exAddrA]
    nameservers := [7]
    mss := 1
    mtu := 1 }

/-- Aggregate B of the cancellation witness. -/
def exC6BW : NMIP4Config :=
  { nm_ip4_config_new with
    gateway := 2
    addresses := [exAddrB]
    nameservers := [8]
    mss := 2
    mtu := 2 }

/-- C10: `nm_ip4_config_set_mtu` applies the source-priority rule: a strictly
higher-priority source overwrites MTU and source; at equal priority the MTU
alone is replaced exactly when it is currently zero or strictly greater than
the new value; a strictly lower-priority source never changes anything. -/
theorem claim_c10 (c : NMIP4Config) (mtu source : Nat) :
    (c.mtu_source < source →
      nm_ip4_config_set_mtu c mtu source = { c with mtu := mtu, mtu_source := source }) ∧
    (source = c.mtu_source →
      ((c.mtu = 0 ∨ mtu < c.mtu →
          nm_ip4_config_set_mtu c mtu source = { c with mtu := mtu }) ∧
       (c.mtu ≠ 0 → ¬ mtu < c.mtu → nm_ip4_config_set_mtu c mtu source = c))) ∧
    (source < c.mtu_source → nm_ip4_config_set_mtu c mtu source = c) := by
  refine ⟨fun h => ?_, fun h => ⟨fun h2 => ?_, fun h2 h3 => ?_⟩, fun h => ?_⟩
  · simp [nm_ip4_config_set_mtu, h]
  · have hlt : ¬ c.mtu_source < source := by omega
    simp [nm_ip4_config_set_mtu, hlt, h, h2]
  · have hlt : ¬ c.mtu_source < source := by omega
    have : ¬ (source = c.mtu_source ∧ (c.mtu = 0 ∨ mtu < c.mtu)) := by
      rintro ⟨-, h4 | h4⟩
      · exact h2 h4
      · exact h3 h4
    simp [nm_ip4_config_set_mtu, hlt, this]
  · have hlt : ¬ c.mtu_source < source := by omega
    have hne : ¬ source = c.mtu_source := by omega
    simp [nm_ip4_config_set_mtu, hlt, hne]

/-- Witness for C10: concrete instances of all three branches of the rule. -/
theorem claim_c10_witness :
    (nm_ip4_config_set_mtu nm_ip4_config_new 1400 2 =
      { nm_ip4_config_new with mtu := 1400, mtu_source := 2 }) ∧
    ({ nm_ip4_config_new with mtu := 1500, mtu_source := 2 : NMIP4Config }.mtu_source < 3 →
      nm_ip4_config_set_mtu { nm_ip4_config_new with mtu := 1500, mtu_source := 2 } 9000 3 =
        { nm_ip4_config_new with mtu := 9000, mtu_source := 3 }) ∧
    (nm_ip4_config_set_mtu { nm_ip4_config_new with mtu := 1500, mtu_source := 2 } 1400 2 =
      { nm_ip4_config_new with mtu := 1400, mtu_source := 2 }) ∧
    (nm_ip4_config_set_mtu { nm_ip4_config_new with mtu := 1500, mtu_source := 2 } 1400 1 =
      { nm_ip4_config_new with mtu := 1500, mtu_source := 2 }) := by
  refine ⟨?_, ?_, ?_, ?_⟩
  · exact (claim_c10 nm_ip4_config_new 1400 2).1 (by decide)
  · exact (claim_c10 { nm_ip4_config_new with mtu := 1500, mtu_source := 2 } 9000 3).1
  · exact ((claim_c10 { nm_ip4_config_new with mtu := 1500, mtu_source := 2 } 1400 2).2.1
      rfl).1 (Or.inr (by decide))
  · exact ((claim_c10 { nm_ip4_config_new with mtu := 1500, mtu_source := 2 } 1400 1).2.2
      (by decide))

/-- `upsert` walks past a (possibly empty) run of non-colliding elements and
fuses exactly the first colliding element in place. -/
theorem upsert_append_first {α κ : Type} [DecidableEq κ] (k : α → κ)
    (fuse : α → α → α) (pre : List α) (old : α) (post : List α) (x : α)
    (hpre : ∀ y ∈ pre, ¬ k y = k x) (hold : k old = k x) :
    upsert k fuse (pre ++ old :: post) x = pre ++ fuse old x :: post := by
  induction pre with
  | nil => simp [upsert, hold]
  | cons y ys ih =>
    have hy : ¬ k y = k x := hpre y (List.mem_cons_self y ys)
    simp only [List.cons_append, upsert, if_neg hy]
    exact congrArg (List.cons y) (ih (fun z hz => hpre z (List.mem_cons_of_mem y hz)))

/-- When nothing collides, `upsert` appends the new element at the end. -/
theorem upsert_append_of_none {α κ : Type} [DecidableEq κ] (k : α → κ)
    (fuse : α → α → α) (l : List α) (x : α)
    (h : ∀ y ∈ l, ¬ k y = k x) :
    upsert k fuse l x = l ++ [x] := by
  induction l with
  | nil => rfl
  | cons y ys ih =>
    have hy : ¬ k y = k x := h y (List.mem_cons_self y ys)
    simp only [upsert, if_neg hy, List.cons_append]
    exact congrArg (List.cons y) (ih (fun z hz => h z (List.mem_cons_of_mem y hz)))

/-- C5: `commit` never passes to the platform layer a route whose gateway is
zero and whose destination is already covered by an on-link subnet of one of
the aggregate's own addresses. -/
theorem claim_c5 (c : NMIP4Config) (r : NMPlatformIP4Route)
    (hgw : r.gateway = 0)
    (hdir : nm_ip4_config_destination_is_direct c r.network r.plen = true) :
    r ∉ nm_ip4_config_commit_routes c := by
  intro hmem
  rw [nm_ip4_config_commit_routes, List.mem_filter] at hmem
  rcases hmem with ⟨-, hkeep⟩
  rw [hgw, hdir] at hkeep
  simp at hkeep

/-- Witness for C5: route `10.0.0.0/24 via 0.0.0.0` is dropped from the
committed route list of an aggregate holding address `10.0.0.5/24`. -/
theorem claim_c5_witness :
    exC5route.gateway = 0 ∧
    nm_ip4_config_destination_is_direct exC5cfg exC5route.network
      exC5route.plen = true ∧
    exC5route ∉ nm_ip4_config_commit_routes exC5cfg :=
  ⟨rfl, by decide, claim_c5 exC5cfg exC5route rfl (by decide)⟩

/-- C7: `add_route` with a zero prefix length is a no-op (precondition
violation), and on a `(network, plen)` identity collision the first
colliding stored record is replaced wholesale by the new one except that the
surviving source is the maximum of the two. -/
theorem claim_c7 (c : NMIP4Config) (r : NMPlatformIP4Route) :
    (r.plen = 0 → nm_ip4_config_add_route c r = c) ∧
    (∀ pre old post, 0 < r.plen →
      c.routes = pre ++ old :: post →
      (∀ x ∈ pre, ¬ (x.network = r.network ∧ x.plen = r.plen)) →
      old.network = r.network → old.plen = r.plen →
      (nm_ip4_config_add_route c r).routes =
        pre ++ { r with source := max old.source r.source } :: post) := by
  constructor
  · intro h
    have : ¬ 0 < r.plen := by omega
    simp [nm_ip4_config_add_route, route_add, this]
  · intro pre old post hplen hroutes hpre hnet hplen2
    have hpre' : ∀ y ∈ pre, ¬ (y.network, y.plen) = (r.network, r.plen) := by
      intro y hy
      intro hcontr
      exact hpre y hy ⟨congrArg Prod.fst hcontr, congrArg Prod.snd hcontr⟩
    have hold : (old.network, old.plen) = (r.network, r.plen) := by
      rw [hnet, hplen2]
    show (route_add c.routes r) = _
    rw [route_add, if_pos hplen, hroutes,
      upsert_append_first _ fuseRoute pre old post r hpre' hold]
    rfl

/-- Witness for C7: the zero-prefix route is rejected, and a collision on
`(5, 24)` replaces the record while keeping the higher stored source. -/
theorem claim_c7_witness :
    (nm_ip4_config_add_route exC7cfg exC7zero = exC7cfg) ∧
    ((nm_ip4_config_add_route exC7cfg exC7new).routes =
      [{ exC7new with source := max exC7old.source exC7new.source }]) := by
  constructor
  · exact (claim_c7 exC7cfg exC7zero).1 rfl
  · have h := (claim_c7 exC7cfg exC7new).2 [] exC7old [] (by decide) rfl
      (by intro x hx; cases hx) rfl rfl
    simpa using h

/-- Counterexample to C2 as stated: `merge` overwrites a non-empty NIS domain
of `dst` whenever `src` carries one, so the NIS domain is not copied "only
when dst's current value is empty". -/
theorem claim_c2_counterexample :
    exC2dst.nis_domain = some "a" ∧
    (nm_ip4_config_merge exC2dst exC2src).nis_domain = some "b" :=
  ⟨rfl, rfl⟩

/-- C2 amended: `merge` copies `gateway`, `mss` and `mtu` from `src` only
when `dst`'s value is zero, but copies `nis_domain` from `src` whenever
`src`'s NIS domain is set (non-NULL), regardless of `dst`'s value. -/
theorem claim_c2_amended (dst src : NMIP4Config) :
    ((nm_ip4_config_merge dst src).gateway ≠ dst.gateway → dst.gateway = 0) ∧
    ((nm_ip4_config_merge dst src).mss ≠ dst.mss → dst.mss = 0) ∧
    ((nm_ip4_config_merge dst src).mtu ≠ dst.mtu → dst.mtu = 0) ∧
    ((nm_ip4_config_merge dst src).nis_domain =
      if src.nis_domain.isSome then src.nis_domain else dst.nis_domain) := by
  refine ⟨?_, ?_, ?_, rfl⟩
  · by_cases h : dst.gateway = 0 <;> simp [nm_ip4_config_merge, h]
  · by_cases h : dst.mss = 0 <;> simp [nm_ip4_config_merge, h]
  · by_cases h : dst.mtu = 0 <;> simp [nm_ip4_config_merge, h]

/-- Witness for C2 amended, instantiated at the counterexample input. -/
theorem claim_c2_amended_witness :
    ((nm_ip4_config_merge exC2dst exC2src).gateway ≠ exC2dst.gateway →
      exC2dst.gateway = 0) ∧
    ((nm_ip4_config_merge exC2dst exC2src).mss ≠ exC2dst.mss →
      exC2dst.mss = 0) ∧
    ((nm_ip4_config_merge exC2dst exC2src).mtu ≠ exC2dst.mtu →
      exC2dst.mtu = 0) ∧
    ((nm_ip4_config_merge exC2dst exC2src).nis_domain =
      if exC2src.nis_domain.isSome then exC2src.nis_domain
      else exC2dst.nis_domain) :=
  claim_c2_amended exC2dst exC2src

/-- C1: the code contradicts its own `g_assert (config_equal ==
!has_relevant_changes)`. The hash concatenates the nameserver and WINS lists
with no delimiter, so an aggregate with nameserver `0.0.0.5` and one with
WINS server `0.0.0.5` feed identical byte streams to the checksum and
`equal` returns true, while `replace` classifies the differing nameserver
list as a relevant change. -/
theorem claim_c1_code_bug_exhibit :
    nm_ip4_config_equal exC1dst exC1src = true ∧
    nm_ip4_config_replace_relevant exC1dst exC1src = true := by
  constructor <;> rfl

/-- `fuseAddress` always takes the identity and label from the new record. -/
theorem fuseAddress_address (old new : NMPlatformIP4Address) :
    (fuseAddress old new).address = new.address := by
  unfold fuseAddress; split <;> rfl

/-- `fuseAddress` always takes the prefix length from the new record. -/
theorem fuseAddress_plen (old new : NMPlatformIP4Address) :
    (fuseAddress old new).plen = new.plen := by
  unfold fuseAddress; split <;> rfl

/-- No record's computed expiry is strictly later than its own. -/
theorem expiryGT_self (a : NMPlatformIP4Address) : expiryGT a a = false := by
  unfold expiryGT
  cases addrExpiry a <;> simp

/-- The expiry comparison only reads the timestamp and lifetime of its first
argument. -/
theorem expiryGT_congr_left (x y b : NMPlatformIP4Address)
    (ht : x.timestamp = y.timestamp) (hl : x.lifetime = y.lifetime) :
    expiryGT x b = expiryGT y b := by
  unfold expiryGT addrExpiry
  rw [ht, hl]

/-- Fusing a record with itself is the identity. -/
theorem fuseAddress_self (a : NMPlatformIP4Address) : fuseAddress a a = a := by
  unfold fuseAddress
  rw [if_neg]
  · conv_lhs => rw [Nat.max_self]
  · simp [expiryGT_self]

/-- `upsert` step on a non-colliding head. -/
theorem upsert_cons_neg {α κ : Type} [DecidableEq κ] (k : α → κ)
    (fuse : α → α → α) (y : α) (ys : List α) (x : α) (h : ¬ k y = k x) :
    upsert k fuse (y :: ys) x = y :: upsert k fuse ys x := by
  show (if k y = k x then fuse y x :: ys else y :: upsert k fuse ys x) = _
  rw [if_neg h]

/-- `upsert` step on a colliding head. -/
theorem upsert_cons_pos {α κ : Type} [DecidableEq κ] (k : α → κ)
    (fuse : α → α → α) (y : α) (ys : List α) (x : α) (h : k y = k x) :
    upsert k fuse (y :: ys) x = fuse y x :: ys := by
  show (if k y = k x then fuse y x :: ys else y :: upsert k fuse ys x) = _
  rw [if_pos h]

/-- Fusing twice with the same new record is the same as fusing once,
provided that a kernel-observed new record only meets an old record whose
source is at least kernel-observed or whose expiry is strictly later. -/
theorem fuseAddress_idem (X a : NMPlatformIP4Address)
    (h : a.source = NM_IP_CONFIG_SOURCE_KERNEL →
      NM_IP_CONFIG_SOURCE_KERNEL ≤ X.source ∨ expiryGT X a = true) :
    fuseAddress (fuseAddress X a) a = fuseAddress X a := by
  by_cases h1 : ((a.source == NM_IP_CONFIG_SOURCE_KERNEL && !(a.source == X.source))
      || expiryGT X a) = true
  · have hf : fuseAddress X a =
        { a with source := max X.source a.source, timestamp := X.timestamp,
                 lifetime := X.lifetime, preferred := X.preferred } := by
      unfold fuseAddress; rw [if_pos h1]
    have hexp : expiryGT (fuseAddress X a) a = expiryGT X a := by
      rw [hf]; exact expiryGT_congr_left _ _ _ rfl rfl
    have hsrc : (fuseAddress X a).source = max X.source a.source := by rw [hf]
    have h2 : ((a.source == NM_IP_CONFIG_SOURCE_KERNEL
        && !(a.source == (fuseAddress X a).source))
        || expiryGT (fuseAddress X a) a) = true := by
      rw [hexp, hsrc]
      rcases Bool.or_eq_true_iff.mp h1 with hko | hex
      · rcases Bool.and_eq_true_iff.mp hko with ⟨hk, hne⟩
        have hk' : a.source = NM_IP_CONFIG_SOURCE_KERNEL := beq_iff_eq.mp hk
        have hne' : a.source ≠ X.source := by
          intro hc; rw [hc] at hne; simp at hne
        rcases h hk' with hge | hex2
        · have hmx : max X.source a.source = X.source := by
            apply Nat.max_eq_left
            rw [hk']
            exact hge
          have hnem : (a.source == max X.source a.source) = false := by
            apply beq_eq_false_iff_ne.mpr
            rw [hmx]
            exact hne'
          apply Bool.or_eq_true_iff.mpr; left
          apply Bool.and_eq_true_iff.mpr
          exact ⟨hk, by rw [hnem]; rfl⟩
        · exact Bool.or_eq_true_iff.mpr (Or.inr hex2)
      · exact Bool.or_eq_true_iff.mpr (Or.inr hex)
    generalize hgen : fuseAddress X a = f at h2 hf
    unfold fuseAddress
    rw [if_pos h2, hf]
    dsimp only
    rw [Nat.max_assoc, Nat.max_self]
  · have hf : fuseAddress X a = { a with source := max X.source a.source } := by
      unfold fuseAddress; rw [if_neg h1]
    generalize hgen : fuseAddress X a = f at hf
    unfold fuseAddress
    split
    · rw [hf]
      dsimp only
      rw [Nat.max_assoc, Nat.max_self]
    · rw [hf]
      dsimp only
      rw [Nat.max_assoc, Nat.max_self]

/-- `address_add` is idempotent under the kernel-source proviso on the list's
colliding entries. -/
theorem address_add_idem (l : List NMPlatformIP4Address)
    (a : NMPlatformIP4Address)
    (h : a.source = NM_IP_CONFIG_SOURCE_KERNEL →
      ∀ x ∈ l, x.address = a.address →
        NM_IP_CONFIG_SOURCE_KERNEL ≤ x.source ∨ expiryGT x a = true) :
    address_add (address_add l a) a = address_add l a := by
  induction l with
  | nil =>
    show address_add [a] a = [a]
    rw [address_add, upsert_cons_pos _ _ _ _ _ rfl, fuseAddress_self]
  | cons y ys ih =>
    by_cases hy : y.address = a.address
    · have h1 : address_add (y :: ys) a = fuseAddress y a :: ys := by
        rw [address_add, upsert_cons_pos _ _ _ _ _ hy]
      have haddr : (fuseAddress y a).address = a.address := by
        rw [fuseAddress_address]
      have h2 : address_add (fuseAddress y a :: ys) a =
          fuseAddress (fuseAddress y a) a :: ys := by
        rw [address_add, upsert_cons_pos _ _ _ _ _ haddr]
      rw [h1, h2,
        fuseAddress_idem y a (fun hk => h hk y (List.mem_cons_self y ys) hy)]
    · have step : ∀ l : List NMPlatformIP4Address,
          address_add (y :: l) a = y :: address_add l a := by
        intro l
        rw [address_add, upsert_cons_neg _ _ _ _ _ hy, address_add]
      rw [step ys, step (address_add ys a)]
      exact congrArg (List.cons y)
        (ih (fun hk x hx hax => h hk x (List.mem_cons_of_mem y hx) hax))

/-- Counterexample to C9 as stated: a kernel-observed record colliding with a
stored unknown-source record of earlier expiry is not added idempotently —
the first call keeps the old lifetimes but raises the source to
kernel-observed, and the second call then overwrites the lifetimes. -/
theorem claim_c9_counterexample :
    nm_ip4_config_add_address (nm_ip4_config_add_address exC9cfg exA9) exA9 ≠
      nm_ip4_config_add_address exC9cfg exA9 := by
  decide

/-- C9 amended: `add_address` is idempotent provided that, when the record
being added is kernel-observed, every stored entry with the same address
value either already has source at least kernel-observed or has a strictly
later computed expiry. -/
theorem claim_c9_amended (c : NMIP4Config) (a : NMPlatformIP4Address)
    (h : a.source = NM_IP_CONFIG_SOURCE_KERNEL →
      ∀ x ∈ c.addresses, x.address = a.address →
        NM_IP_CONFIG_SOURCE_KERNEL ≤ x.source ∨ expiryGT x a = true) :
    nm_ip4_config_add_address (nm_ip4_config_add_address c a) a =
      nm_ip4_config_add_address c a := by
  unfold nm_ip4_config_add_address
  exact congrArg (fun l => { c with addresses := l }) (address_add_idem c.addresses a h)

/-- Witness for C9 amended: adding a kernel-observed record over a stored
dhcp-source record is idempotent. -/
theorem claim_c9_amended_witness :
    nm_ip4_config_add_address (nm_ip4_config_add_address exW9cfg exA9) exA9 =
      nm_ip4_config_add_address exW9cfg exA9 :=
  claim_c9_amended exW9cfg exA9 (by decide)

/-- The Boolean restore condition of `add_address` in the claim's phrasing:
"the new source is kernel-observed and the old source was not, or the old
expiry is strictly later". -/
theorem fuse_keep_cond_iff (old new : NMPlatformIP4Address) :
    (((new.source == NM_IP_CONFIG_SOURCE_KERNEL && !(new.source == old.source))
      || expiryGT old new) = true) ↔
    ((new.source = NM_IP_CONFIG_SOURCE_KERNEL ∧
      old.source ≠ NM_IP_CONFIG_SOURCE_KERNEL) ∨ expiryGT old new = true) := by
  constructor
  · intro ht
    rcases Bool.or_eq_true_iff.mp ht with hko | hex
    · rcases Bool.and_eq_true_iff.mp hko with ⟨hk, hne⟩
      have hk' : new.source = NM_IP_CONFIG_SOURCE_KERNEL := beq_iff_eq.mp hk
      left
      refine ⟨hk', fun hc => ?_⟩
      rw [hc, hk'] at hne
      simp at hne
    · exact Or.inr hex
  · intro hc
    rcases hc with ⟨h1, h2⟩ | h3
    · apply Bool.or_eq_true_iff.mpr; left
      apply Bool.and_eq_true_iff.mpr
      refine ⟨beq_iff_eq.mpr h1, ?_⟩
      have hne : new.source ≠ old.source := by
        intro he
        apply h2
        rw [← he]
        exact h1
      simp [hne]
    · exact Bool.or_eq_true_iff.mpr (Or.inr h3)

/-- Counterexample to C4 as stated: the aggregate holds `1/16` and `1/24`
(identity-unique), and `1/24` with new metadata is added. `add_address`
collides on the address value alone, so it rewrites the `1/16` slot and
leaves the stored `(1, 24)`-identity entry `exA24` untouched with its old
metadata (and the aggregate now holds two `(1, 24)` entries). -/
theorem claim_c4_counterexample :
    exA24.address = exC4new.address ∧ exA24.plen = exC4new.plen ∧
    exA24 ≠ exC4new ∧
    (nm_ip4_config_add_address exC4cfg exC4new).addresses = [exC4new, exA24] := by
  decide

/-- C4 amended: `add_address` matches the first stored entry with the same
address value (the prefix length is not part of the match); that entry's
non-identity fields are overwritten with the new values, except that the old
lifetime/preferred/timestamp are retained when the new source is
kernel-observed and the old one was not, or when the old computed expiry is
strictly later; the surviving source is the maximum of the two. -/
theorem claim_c4_amended (c : NMIP4Config) (new : NMPlatformIP4Address)
    (pre : List NMPlatformIP4Address) (old : NMPlatformIP4Address)
    (post : List NMPlatformIP4Address)
    (hsplit : c.addresses = pre ++ old :: post)
    (hpre : ∀ x ∈ pre, ¬ x.address = new.address)
    (hold : old.address = new.address) :
    (nm_ip4_config_add_address c new).addresses =
      pre ++ (if (new.source = NM_IP_CONFIG_SOURCE_KERNEL ∧
                  old.source ≠ NM_IP_CONFIG_SOURCE_KERNEL) ∨
                 expiryGT old new = true then
                { new with source := max old.source new.source,
                           timestamp := old.timestamp, lifetime := old.lifetime,
                           preferred := old.preferred }
              else { new with source := max old.source new.source }) :: post := by
  show address_add c.addresses new = _
  rw [address_add, hsplit,
    upsert_append_first _ fuseAddress pre old post new hpre hold]
  congr 1
  congr 1
  unfold fuseAddress
  by_cases hc : (new.source = NM_IP_CONFIG_SOURCE_KERNEL ∧
      old.source ≠ NM_IP_CONFIG_SOURCE_KERNEL) ∨ expiryGT old new = true
  · rw [if_pos ((fuse_keep_cond_iff old new).mpr hc), if_pos hc]
  · rw [if_neg (fun hb => hc ((fuse_keep_cond_iff old new).mp hb)), if_neg hc]

/-- Witness for C4 amended: adding `1/24` with lifetime 9 over a sole stored
`(1, 24)` entry rewrites that entry as described. -/
theorem claim_c4_amended_witness :
    (nm_ip4_config_add_address exW4cfg exC4new).addresses =
      [] ++ (if (exC4new.source = NM_IP_CONFIG_SOURCE_KERNEL ∧
                exA24.source ≠ NM_IP_CONFIG_SOURCE_KERNEL) ∨
               expiryGT exA24 exC4new = true then
              { exC4new with source := max exA24.source exC4new.source,
                             timestamp := exA24.timestamp,
                             lifetime := exA24.lifetime,
                             preferred := exA24.preferred }
            else { exC4new with source := max exA24.source exC4new.source })
        :: [] :=
  claim_c4_amended exW4cfg exC4new [] exA24 [] rfl
    (by intro x hx; cases hx) rfl

/-- Members of `upsert` are old members or share the new element's key
(given that fusing preserves the new element's key). -/
theorem upsert_mem_key {α κ : Type} [DecidableEq κ] (k : α → κ)
    (fuse : α → α → α) (hfk : ∀ y x, k y = k x → k (fuse y x) = k x) :
    ∀ (l : List α) (x b : α), b ∈ upsert k fuse l x → b ∈ l ∨ k b = k x := by
  intro l
  induction l with
  | nil =>
    intro x b hb
    right
    have : b = x := List.mem_singleton.mp hb
    rw [this]
  | cons y ys ih =>
    intro x b hb
    by_cases hy : k y = k x
    · rw [upsert_cons_pos _ _ _ _ _ hy] at hb
      rcases List.mem_cons.mp hb with rfl | hmem
      · right; exact hfk y x hy
      · left; exact List.mem_cons_of_mem y hmem
    · rw [upsert_cons_neg _ _ _ _ _ hy] at hb
      rcases List.mem_cons.mp hb with rfl | hmem
      · left; exact List.mem_cons_self _ _
      · rcases ih x b hmem with h1 | h2
        · left; exact List.mem_cons_of_mem y h1
        · right; exact h2

/-- `upsert` preserves pairwise key-distinctness. -/
theorem upsert_pairwise_keys {α κ : Type} [DecidableEq κ] (k : α → κ)
    (fuse : α → α → α) (hfk : ∀ y x, k y = k x → k (fuse y x) = k x)
    (l : List α) (x : α)
    (hl : l.Pairwise (fun a b => k a ≠ k b)) :
    (upsert k fuse l x).Pairwise (fun a b => k a ≠ k b) := by
  induction l with
  | nil => simp [upsert]
  | cons y ys ih =>
    rcases List.pairwise_cons.mp hl with ⟨hy_ys, hys⟩
    by_cases hy : k y = k x
    · rw [upsert_cons_pos _ _ _ _ _ hy]
      apply List.pairwise_cons.mpr
      refine ⟨?_, hys⟩
      intro b hb
      rw [hfk y x hy, ← hy]
      exact hy_ys b hb
    · rw [upsert_cons_neg _ _ _ _ _ hy]
      apply List.pairwise_cons.mpr
      refine ⟨?_, ih hys⟩
      intro b hb
      rcases upsert_mem_key k fuse hfk ys x b hb with h1 | h2
      · exact hy_ys b h1
      · rw [h2]; exact hy

/-- Fusing two routes keeps the new route's identity key. -/
theorem fuseRoute_key (y x : NMPlatformIP4Route) :
    ((fuseRoute y x).network, (fuseRoute y x).plen) = (x.network, x.plen) := rfl

/-- Any sequence of `add_address` / `add_route` mutations preserves pairwise
distinctness of address values and of route `(network, plen)` identities. -/
theorem applyOps_distinct (ops : List NMConfigOp) :
    ∀ c : NMIP4Config,
      c.addresses.Pairwise (fun x y => x.address ≠ y.address) →
      c.routes.Pairwise (fun x y => (x.network, x.plen) ≠ (y.network, y.plen)) →
      (applyOps c ops).addresses.Pairwise (fun x y => x.address ≠ y.address) ∧
      (applyOps c ops).routes.Pairwise
        (fun x y => (x.network, x.plen) ≠ (y.network, y.plen)) := by
  induction ops with
  | nil => intro c h1 h2; exact ⟨h1, h2⟩
  | cons op rest ih =>
    intro c h1 h2
    have hA : (applyOp c op).addresses.Pairwise
        (fun x y => x.address ≠ y.address) := by
      cases op with
      | addAddr a =>
        exact upsert_pairwise_keys _ _ (fun y x _ => fuseAddress_address y x)
          c.addresses a h1
      | addRoute r => exact h1
    have hR : (applyOp c op).routes.Pairwise
        (fun x y => (x.network, x.plen) ≠ (y.network, y.plen)) := by
      cases op with
      | addAddr a => exact h2
      | addRoute r =>
        show (route_add c.routes r).Pairwise _
        unfold route_add
        split
        · exact upsert_pairwise_keys (fun r => (r.network, r.plen)) fuseRoute
            (fun y x _ => fuseRoute_key y x) c.routes r h2
        · exact h2
    exact ih (applyOp c op) hA hR

/-- C8: after any sequence of `add_address` / `add_route` calls on an
aggregate created empty, no two stored addresses share the `(address, plen)`
identity and no two stored routes share the `(network, plen)` identity. -/
theorem claim_c8 (ops : List NMConfigOp) :
    (applyOps nm_ip4_config_new ops).addresses.Pairwise
      (fun x y => ¬ (x.address = y.address ∧ x.plen = y.plen)) ∧
    (applyOps nm_ip4_config_new ops).routes.Pairwise
      (fun x y => ¬ (x.network = y.network ∧ x.plen = y.plen)) := by
  obtain ⟨h1, h2⟩ := applyOps_distinct ops nm_ip4_config_new
    List.Pairwise.nil List.Pairwise.nil
  constructor
  · exact h1.imp (fun h hc => h hc.1)
  · exact h2.imp (fun h hc => h (by rw [hc.1, hc.2]))

/-- Scan step: a default route with a strictly lower metric takes over the
gateway. -/
theorem capture_scan_cons_pos_lt (r : NMPlatformIP4Route)
    (rs : List NMPlatformIP4Route) (gw low : Nat) (has : Bool)
    (hp : r.plen = 0) (hm : r.metric < low) :
    capture_scan (r :: rs) gw low has = capture_scan rs r.gateway r.metric true := by
  show (if r.plen = 0 then
      (if r.metric < low then capture_scan rs r.gateway r.metric true
       else capture_scan rs gw low true)
    else
      let t := capture_scan rs gw low has
      { t with kept := r :: t.kept }) = _
  rw [if_pos hp, if_pos hm]

/-- Scan step: a default route with a metric not below the lowest seen only
marks that a gateway exists. -/
theorem capture_scan_cons_pos_ge (r : NMPlatformIP4Route)
    (rs : List NMPlatformIP4Route) (gw low : Nat) (has : Bool)
    (hp : r.plen = 0) (hm : ¬ r.metric < low) :
    capture_scan (r :: rs) gw low has = capture_scan rs gw low true := by
  show (if r.plen = 0 then
      (if r.metric < low then capture_scan rs r.gateway r.metric true
       else capture_scan rs gw low true)
    else
      let t := capture_scan rs gw low has
      { t with kept := r :: t.kept }) = _
  rw [if_pos hp, if_neg hm]

/-- Scan step: a non-default route is retained. -/
theorem capture_scan_cons_neg (r : NMPlatformIP4Route)
    (rs : List NMPlatformIP4Route) (gw low : Nat) (has : Bool)
    (hp : ¬ r.plen = 0) :
    capture_scan (r :: rs) gw low has =
      { capture_scan rs gw low has with
        kept := r :: (capture_scan rs gw low has).kept } := by
  show (if r.plen = 0 then
      (if r.metric < low then capture_scan rs r.gateway r.metric true
       else capture_scan rs gw low true)
    else
      let t := capture_scan rs gw low has
      { t with kept := r :: t.kept }) = _
  rw [if_neg hp]

/-- The scan keeps exactly the non-default routes, in order. -/
theorem capture_scan_kept (routes : List NMPlatformIP4Route) :
    ∀ gw low has, (capture_scan routes gw low has).kept =
      routes.filter (fun r => !(r.plen == 0)) := by
  induction routes with
  | nil => intro gw low has; rfl
  | cons r rs ih =>
    intro gw low has
    by_cases hp : r.plen = 0
    · have hfil : (r :: rs).filter (fun r => !(r.plen == 0)) =
          rs.filter (fun r => !(r.plen == 0)) := by
        simp [List.filter_cons, hp]
      rw [hfil]
      by_cases hm : r.metric < low
      · rw [capture_scan_cons_pos_lt r rs gw low has hp hm, ih]
      · rw [capture_scan_cons_pos_ge r rs gw low has hp hm, ih]
    · have hfil : (r :: rs).filter (fun r => !(r.plen == 0)) =
          r :: rs.filter (fun r => !(r.plen == 0)) := by
        simp [List.filter_cons, hp]
      rw [capture_scan_cons_neg r rs gw low has hp, hfil]
      show r :: (capture_scan rs gw low has).kept = _
      rw [ih]

/-- The scan has seen a gateway exactly when it started marked or some route
is a default route. -/
theorem capture_scan_has (routes : List NMPlatformIP4Route) :
    ∀ gw low has, (capture_scan routes gw low has).has_gateway =
      (has || routes.any (fun r => r.plen == 0)) := by
  induction routes with
  | nil => intro gw low has; simp [capture_scan]
  | cons r rs ih =>
    intro gw low has
    by_cases hp : r.plen = 0
    · by_cases hm : r.metric < low
      · rw [capture_scan_cons_pos_lt r rs gw low has hp hm, ih]
        simp [hp]
      · rw [capture_scan_cons_pos_ge r rs gw low has hp hm, ih]
        simp [hp]
    · rw [capture_scan_cons_neg r rs gw low has hp]
      show (capture_scan rs gw low has).has_gateway = _
      rw [ih]
      have hb : (r.plen == 0) = false := beq_eq_false_iff_ne.mpr hp
      rw [List.any_cons, hb]
      simp

/-- The lowest metric tracked by the scan never increases. -/
theorem capture_scan_lowest_le (routes : List NMPlatformIP4Route) :
    ∀ gw low has, (capture_scan routes gw low has).lowest ≤ low := by
  induction routes with
  | nil => intro gw low has; exact Nat.le_refl low
  | cons r rs ih =>
    intro gw low has
    by_cases hp : r.plen = 0
    · by_cases hm : r.metric < low
      · rw [capture_scan_cons_pos_lt r rs gw low has hp hm]
        exact Nat.le_trans (ih r.gateway r.metric true) (Nat.le_of_lt hm)
      · rw [capture_scan_cons_pos_ge r rs gw low has hp hm]
        exact ih gw low true
    · rw [capture_scan_cons_neg r rs gw low has hp]
      show (capture_scan rs gw low has).lowest ≤ low
      exact ih gw low has

/-- The final lowest metric is at most the metric of every default route in
the list. -/
theorem capture_scan_lowest_le_defaults (routes : List NMPlatformIP4Route) :
    ∀ gw low has, ∀ d ∈ routes, d.plen = 0 →
      (capture_scan routes gw low has).lowest ≤ d.metric := by
  induction routes with
  | nil => intro gw low has d hd; cases hd
  | cons r rs ih =>
    intro gw low has d hd hdp
    by_cases hp : r.plen = 0
    · by_cases hm : r.metric < low
      · rw [capture_scan_cons_pos_lt r rs gw low has hp hm]
        rcases List.mem_cons.mp hd with rfl | hmem
        · exact capture_scan_lowest_le rs d.gateway d.metric true
        · exact ih r.gateway r.metric true d hmem hdp
      · rw [capture_scan_cons_pos_ge r rs gw low has hp hm]
        rcases List.mem_cons.mp hd with rfl | hmem
        · exact Nat.le_trans (capture_scan_lowest_le rs gw low true)
            (Nat.le_of_not_lt hm)
        · exact ih gw low true d hmem hdp
    · rw [capture_scan_cons_neg r rs gw low has hp]
      rcases List.mem_cons.mp hd with rfl | hmem
      · exact absurd hdp hp
      · show (capture_scan rs gw low has).lowest ≤ d.metric
        exact ih gw low has d hmem hdp

/-- The final gateway/lowest pair is either untouched or comes from some
default route of the list whose metric is strictly below the initial lowest
metric. -/
theorem capture_scan_gw_cases (routes : List NMPlatformIP4Route) :
    ∀ gw low has,
      ((capture_scan routes gw low has).gw = gw ∧
       (capture_scan routes gw low has).lowest = low) ∨
      (∃ d ∈ routes, d.plen = 0 ∧
        (capture_scan routes gw low has).gw = d.gateway ∧
        (capture_scan routes gw low has).lowest = d.metric ∧
        d.metric < low) := by
  induction routes with
  | nil => intro gw low has; exact Or.inl ⟨rfl, rfl⟩
  | cons r rs ih =>
    intro gw low has
    by_cases hp : r.plen = 0
    · by_cases hm : r.metric < low
      · rw [capture_scan_cons_pos_lt r rs gw low has hp hm]
        rcases ih r.gateway r.metric true with ⟨hg, hl⟩ | ⟨d, hd, hdp, hg, hl, hlt⟩
        · exact Or.inr ⟨r, List.mem_cons_self r rs, hp, hg, hl, hm⟩
        · exact Or.inr ⟨d, List.mem_cons_of_mem r hd, hdp, hg, hl,
            Nat.lt_trans hlt hm⟩
      · rw [capture_scan_cons_pos_ge r rs gw low has hp hm]
        rcases ih gw low true with ⟨hg, hl⟩ | ⟨d, hd, hdp, hg, hl, hlt⟩
        · exact Or.inl ⟨hg, hl⟩
        · exact Or.inr ⟨d, List.mem_cons_of_mem r hd, hdp, hg, hl, hlt⟩
    · rw [capture_scan_cons_neg r rs gw low has hp]
      rcases ih gw low has with ⟨hg, hl⟩ | ⟨d, hd, hdp, hg, hl, hlt⟩
      · exact Or.inl ⟨hg, hl⟩
      · exact Or.inr ⟨d, List.mem_cons_of_mem r hd, hdp, hg, hl, hlt⟩

/-- Counterexample to C3 as stated: a lone default route whose metric is
`G_MAXUINT32` (the int value −1 reinterpreted) is never `< lowest_metric`
(initialised to `G_MAXUINT32`), so its gateway 7 is not extracted: the
captured gateway stays 0 even though a default route with a gateway exists,
while the default route is still stripped from the stored set. -/
theorem claim_c3_counterexample :
    exDsent.plen = 0 ∧ exDsent.gateway = 7 ∧
    nm_ip4_config_capture 0 [] [exDsent] [] false =
      some (nm_ip4_config_capture_body [] [exDsent] [] false) ∧
    (nm_ip4_config_capture_body [] [exDsent] [] false).gateway = 0 ∧
    ¬ (nm_ip4_config_capture_body [] [exDsent] [] false).gateway =
        exDsent.gateway ∧
    (nm_ip4_config_capture_body [] [exDsent] [] false).routes = [] := by
  decide

/-- C3 amended: provided some default route has metric strictly below the
`G_MAXUINT32` sentinel, capture takes the gateway from a default route of
minimal metric among the defaults, stores no default route, and of the
remaining routes drops exactly the host routes (`plen` 32) whose destination
equals the chosen gateway and whose own gateway is zero. -/
theorem claim_c3_amended (master : Int) (addrs : List NMPlatformIP4Address)
    (routes : List NMPlatformIP4Route) (resolv : List Nat) (capture_rc : Bool)
    (hmaster : ¬ 0 < master)
    (hdef : ∃ d ∈ routes, d.plen = 0 ∧ d.metric < 4294967295) :
    nm_ip4_config_capture master addrs routes resolv capture_rc =
      some (nm_ip4_config_capture_body addrs routes resolv capture_rc) ∧
    (∃ d ∈ routes, d.plen = 0 ∧
      (nm_ip4_config_capture_body addrs routes resolv capture_rc).gateway =
        d.gateway ∧
      ∀ e ∈ routes, e.plen = 0 → d.metric ≤ e.metric) ∧
    (∀ r ∈ (nm_ip4_config_capture_body addrs routes resolv capture_rc).routes,
      r.plen ≠ 0) ∧
    (nm_ip4_config_capture_body addrs routes resolv capture_rc).routes =
      (routes.filter (fun r => !(r.plen == 0))).filter
        (fun r => !(r.plen == 32 &&
          r.network ==
            (nm_ip4_config_capture_body addrs routes resolv capture_rc).gateway &&
          r.gateway == 0)) := by
  obtain ⟨d0, hd0, hd0p, hd0m⟩ := hdef
  have hhas : (capture_scan routes 0 4294967295 false).has_gateway = true := by
    rw [capture_scan_has]
    have : routes.any (fun r => r.plen == 0) = true :=
      List.any_eq_true.mpr ⟨d0, hd0, beq_iff_eq.mpr hd0p⟩
    rw [this]
    simp
  have hgwproj :
      (nm_ip4_config_capture_body addrs routes resolv capture_rc).gateway =
        (capture_scan routes 0 4294967295 false).gw := rfl
  have hroutesproj :
      (nm_ip4_config_capture_body addrs routes resolv capture_rc).routes =
        (capture_scan routes 0 4294967295 false).kept.filter
          (fun r => !(r.plen == 32 &&
            r.network == (capture_scan routes 0 4294967295 false).gw &&
            r.gateway == 0)) := by
    show (if (capture_scan routes 0 4294967295 false).has_gateway then
        (capture_scan routes 0 4294967295 false).kept.filter
          (fun r => !(r.plen == 32 &&
            r.network == (capture_scan routes 0 4294967295 false).gw &&
            r.gateway == 0))
      else (capture_scan routes 0 4294967295 false).kept) = _
    rw [hhas, if_pos rfl]
  refine ⟨?_, ?_, ?_, ?_⟩
  · rw [nm_ip4_config_capture, if_neg hmaster]
  · rcases capture_scan_gw_cases routes 0 4294967295 false with
      ⟨hg, hl⟩ | ⟨d, hd, hdp, hg, hl, hlt⟩
    · exfalso
      have hle := capture_scan_lowest_le_defaults routes 0 4294967295 false
        d0 hd0 hd0p
      rw [hl] at hle
      omega
    · refine ⟨d, hd, hdp, ?_, fun e he hep => ?_⟩
      · rw [hgwproj, hg]
      · have hle := capture_scan_lowest_le_defaults routes 0 4294967295 false
          e he hep
        rw [hl] at hle
        exact hle
  · intro r hr
    rw [hroutesproj] at hr
    rcases List.mem_filter.mp hr with ⟨hr1, -⟩
    rw [capture_scan_kept] at hr1
    rcases List.mem_filter.mp hr1 with ⟨-, hr2⟩
    intro hz
    rw [hz] at hr2
    simp at hr2
  · rw [hroutesproj, hgwproj, capture_scan_kept]

/-- Witness for C3 amended: capturing two default routes with metrics 100
and 50 yields the metric-50 route's gateway 514 and stores neither default
route. -/
theorem claim_c3_amended_witness :
    (nm_ip4_config_capture 0 [] [exD100, exD50] [] false =
      some (nm_ip4_config_capture_body [] [exD100, exD50] [] false) ∧
     (∃ d ∈ [exD100, exD50], d.plen = 0 ∧
       (nm_ip4_config_capture_body [] [exD100, exD50] [] false).gateway =
         d.gateway ∧
       ∀ e ∈ [exD100, exD50], e.plen = 0 → d.metric ≤ e.metric) ∧
     (∀ r ∈ (nm_ip4_config_capture_body [] [exD100, exD50] [] false).routes,
       r.plen ≠ 0) ∧
     (nm_ip4_config_capture_body [] [exD100, exD50] [] false).routes =
       (([exD100, exD50].filter (fun r => !(r.plen == 0))).filter
         (fun r => !(r.plen == 32 &&
           r.network ==
             (nm_ip4_config_capture_body [] [exD100, exD50] [] false).gateway &&
           r.gateway == 0)))) ∧
    (nm_ip4_config_capture_body [] [exD100, exD50] [] false).gateway = 514 ∧
    (nm_ip4_config_capture_body [] [exD100, exD50] [] false).routes = [] :=
  ⟨claim_c3_amended 0 [] [exD100, exD50] [] false (by decide)
      ⟨exD50, by decide, by decide, by decide⟩,
   by decide, by decide⟩

/-- `upsert` walks past a run of non-colliding elements unchanged. -/
theorem upsert_append_left {α κ : Type} [DecidableEq κ] (k : α → κ)
    (fuse : α → α → α) (l₁ l₂ : List α) (x : α)
    (h : ∀ y ∈ l₁, ¬ k y = k x) :
    upsert k fuse (l₁ ++ l₂) x = l₁ ++ upsert k fuse l₂ x := by
  induction l₁ with
  | nil => rfl
  | cons y ys ih =>
    have hy : ¬ k y = k x := h y (List.mem_cons_self y ys)
    rw [List.cons_append, upsert_cons_neg _ _ _ _ _ hy, List.cons_append]
    exact congrArg (List.cons y) (ih (fun z hz => h z (List.mem_cons_of_mem y hz)))

/-- Members of `upsert` are old members or share the new element's
identity key (`k2`), when fusing preserves it. -/
theorem upsert_mem_k2 {α κ₁ κ₂ : Type} [DecidableEq κ₁] (k1 : α → κ₁)
    (k2 : α → κ₂) (fuse : α → α → α)
    (hfuse : ∀ y x, k1 y = k1 x → k2 (fuse y x) = k2 x) :
    ∀ (l : List α) (x b : α), b ∈ upsert k1 fuse l x → b ∈ l ∨ k2 b = k2 x := by
  intro l
  induction l with
  | nil =>
    intro x b hb
    right
    have hbx : b = x := List.mem_singleton.mp hb
    rw [hbx]
  | cons y ys ih =>
    intro x b hb
    by_cases hy : k1 y = k1 x
    · rw [upsert_cons_pos _ _ _ _ _ hy] at hb
      rcases List.mem_cons.mp hb with rfl | hmem
      · right; exact hfuse y x hy
      · left; exact List.mem_cons_of_mem y hmem
    · rw [upsert_cons_neg _ _ _ _ _ hy] at hb
      rcases List.mem_cons.mp hb with rfl | hmem
      · left; exact List.mem_cons_self _ _
      · rcases ih x b hmem with h1 | h2
        · left; exact List.mem_cons_of_mem y h1
        · right; exact h2

/-- Folding an `add` primitive (either a pure no-op or an `upsert`, per
element) over a source list never touches a prefix whose keys are disjoint
from the source. -/
theorem foldl_add_append {α κ₁ : Type} [DecidableEq κ₁] (k1 : α → κ₁)
    (fuse : α → α → α) (add : List α → α → List α)
    (hadd : ∀ x, (∀ l, add l x = l) ∨ (∀ l, add l x = upsert k1 fuse l x)) :
    ∀ (src : List α) (dst T : List α),
      (∀ s ∈ src, ∀ d ∈ dst, ¬ k1 s = k1 d) →
      List.foldl add (dst ++ T) src = dst ++ List.foldl add T src := by
  intro src
  induction src with
  | nil => intro dst T _; rfl
  | cons s src' ih =>
    intro dst T hdisj
    rw [List.foldl_cons, List.foldl_cons]
    rcases hadd s with hid | hup
    · rw [hid (dst ++ T), hid T]
      exact ih dst T (fun s' hs' => hdisj s' (List.mem_cons_of_mem s hs'))
    · rw [hup (dst ++ T), hup T,
        upsert_append_left k1 fuse dst T s
          (fun d hd heq => hdisj s (List.mem_cons_self s src') d hd heq.symm)]
      exact ih dst (upsert k1 fuse T s)
        (fun s' hs' => hdisj s' (List.mem_cons_of_mem s hs'))

/-- Folding an `add` primitive preserves pairwise key-distinctness. -/
theorem foldl_add_pairwise {α κ₁ : Type} [DecidableEq κ₁] (k1 : α → κ₁)
    (fuse : α → α → α) (add : List α → α → List α)
    (hadd : ∀ x, (∀ l, add l x = l) ∨ (∀ l, add l x = upsert k1 fuse l x))
    (hfk1 : ∀ y x, k1 y = k1 x → k1 (fuse y x) = k1 x) :
    ∀ (src T : List α), T.Pairwise (fun a b => k1 a ≠ k1 b) →
      (List.foldl add T src).Pairwise (fun a b => k1 a ≠ k1 b) := by
  intro src
  induction src with
  | nil => intro T h; exact h
  | cons s src' ih =>
    intro T h
    rw [List.foldl_cons]
    rcases hadd s with hid | hup
    · rw [hid T]; exact ih T h
    · rw [hup T]
      exact ih (upsert k1 fuse T s) (upsert_pairwise_keys k1 fuse hfk1 T s h)

/-- Every element produced by folding an `add` primitive either shares its
identity key with a start element or with a source element. -/
theorem foldl_add_mem_k2 {α κ₁ κ₂ : Type} [DecidableEq κ₁] (k1 : α → κ₁)
    (k2 : α → κ₂) (fuse : α → α → α) (add : List α → α → List α)
    (hadd : ∀ x, (∀ l, add l x = l) ∨ (∀ l, add l x = upsert k1 fuse l x))
    (hfuse : ∀ y x, k1 y = k1 x → k2 (fuse y x) = k2 x) :
    ∀ (src T : List α) (b : α), b ∈ List.foldl add T src →
      (∃ t ∈ T, k2 b = k2 t) ∨ (∃ s ∈ src, k2 b = k2 s) := by
  intro src
  induction src with
  | nil => intro T b hb; exact Or.inl ⟨b, hb, rfl⟩
  | cons s src' ih =>
    intro T b hb
    rw [List.foldl_cons] at hb
    rcases ih (add T s) b hb with ⟨t, ht, hk⟩ | ⟨s', hs', hk⟩
    · rcases hadd s with hid | hup
      · rw [hid T] at ht
        exact Or.inl ⟨t, ht, hk⟩
      · rw [hup T] at ht
        rcases upsert_mem_k2 k1 k2 fuse hfuse T s t ht with h1 | h2
        · exact Or.inl ⟨t, h1, hk⟩
        · exact Or.inr ⟨s, List.mem_cons_self s src', hk.trans h2⟩
    · exact Or.inr ⟨s', List.mem_cons_of_mem s hs', hk⟩

/-- `removeFirstBy` step on a head satisfying the test. -/
theorem removeFirstBy_cons_pos {α : Type} (p : α → Bool) (y : α) (ys : List α)
    (h : p y = true) : removeFirstBy p (y :: ys) = ys := by
  show (if p y then ys else y :: removeFirstBy p ys) = ys
  rw [h]
  rfl

/-- `removeFirstBy` step on a head failing the test. -/
theorem removeFirstBy_cons_neg {α : Type} (p : α → Bool) (y : α) (ys : List α)
    (h : p y = false) : removeFirstBy p (y :: ys) = y :: removeFirstBy p ys := by
  show (if p y then ys else y :: removeFirstBy p ys) = _
  rw [h]
  rfl

/-- `removeFirstBy` skips a prefix on which the test fails. -/
theorem removeFirstBy_append_of_none {α : Type} (p : α → Bool)
    (l₁ l₂ : List α) (h : ∀ y ∈ l₁, p y = false) :
    removeFirstBy p (l₁ ++ l₂) = l₁ ++ removeFirstBy p l₂ := by
  induction l₁ with
  | nil => rfl
  | cons y ys ih =>
    rw [List.cons_append, removeFirstBy_cons_neg p y _ (h y (List.mem_cons_self y ys)),
      List.cons_append]
    exact congrArg (List.cons y) (ih (fun z hz => h z (List.mem_cons_of_mem y hz)))

/-- `removeFirstBy` with a test that never fires is the identity. -/
theorem removeFirstBy_of_none {α : Type} (p : α → Bool) (l : List α)
    (h : ∀ y ∈ l, p y = false) : removeFirstBy p l = l := by
  have hap := removeFirstBy_append_of_none p l [] h
  rw [List.append_nil] at hap
  rw [hap, show removeFirstBy p ([] : List α) = [] from rfl, List.append_nil]

/-- A list containing an element satisfying `p` splits at the first such
element. -/
theorem exists_first_true_decomp {α : Type} (p : α → Bool) :
    ∀ l : List α, (∃ y ∈ l, p y = true) →
      ∃ l₁ y l₂, l = l₁ ++ y :: l₂ ∧ (∀ z ∈ l₁, p z = false) ∧ p y = true := by
  intro l
  induction l with
  | nil => rintro ⟨y, hy, -⟩; cases hy
  | cons a as ih =>
    intro hex
    by_cases ha : p a = true
    · exact ⟨[], a, as, rfl, fun z hz => absurd hz (List.not_mem_nil z), ha⟩
    · have ha' : p a = false := Bool.eq_false_iff.mpr ha
      obtain ⟨y, hy, hpy⟩ := hex
      rcases List.mem_cons.mp hy with rfl | hmem
      · exact absurd hpy ha
      · obtain ⟨l₁, y', l₂, heq, hl₁, hpy'⟩ := ih ⟨y, hmem, hpy⟩
        refine ⟨a :: l₁, y', l₂, by rw [heq, List.cons_append], ?_, hpy'⟩
        intro z hz
        rcases List.mem_cons.mp hz with rfl | hzmem
        · exact ha'
        · exact hl₁ z hzmem

/-- The subtraction pass: removing, for each source element in turn, the
first element with the same identity key, consumes exactly a key-distinct
suffix whose keys all occur in the source, and leaves the prefix intact. -/
theorem foldl_remove_append {α κ₁ κ₂ : Type} (k1 : α → κ₁) (k2 : α → κ₂)
    (proj : κ₂ → κ₁) (P : α → α → Bool)
    (hproj : ∀ x, proj (k2 x) = k1 x)
    (hP : ∀ s d, P s d = true ↔ k2 d = k2 s) :
    ∀ (src T dst : List α),
      (∀ s ∈ src, ∀ d ∈ dst, ¬ k1 s = k1 d) →
      T.Pairwise (fun a b => k1 a ≠ k1 b) →
      (∀ t ∈ T, ∃ s ∈ src, k2 t = k2 s) →
      List.foldl (fun acc s => removeFirstBy (P s) acc) (dst ++ T) src = dst := by
  intro src
  induction src with
  | nil =>
    intro T dst _ _ hwit
    cases T with
    | nil => rw [List.append_nil]; rfl
    | cons t ts =>
      obtain ⟨s, hs, -⟩ := hwit t (List.mem_cons_self t ts)
      cases hs
  | cons s src' ih =>
    intro T dst hdisj hpair hwit
    rw [List.foldl_cons]
    have hdstP : ∀ d ∈ dst, P s d = false := by
      intro d hd
      apply Bool.eq_false_iff.mpr
      intro ht
      have hk2 : k2 d = k2 s := (hP s d).mp ht
      have hk1 : k1 d = k1 s := by rw [← hproj d, ← hproj s, hk2]
      exact hdisj s (List.mem_cons_self s src') d hd hk1.symm
    rw [removeFirstBy_append_of_none _ _ _ hdstP]
    by_cases hex : ∃ t ∈ T, P s t = true
    · obtain ⟨T₁, t₀, T₂, hTeq, hT₁, ht₀⟩ := exists_first_true_decomp (P s) T hex
      have hrm : removeFirstBy (P s) T = T₁ ++ T₂ := by
        rw [hTeq, removeFirstBy_append_of_none _ _ _ hT₁,
          removeFirstBy_cons_pos _ _ _ ht₀]
      rw [hrm]
      have hpairT : (T₁ ++ t₀ :: T₂).Pairwise (fun a b => k1 a ≠ k1 b) := by
        rw [← hTeq]; exact hpair
      have hpair' : (T₁ ++ T₂).Pairwise (fun a b => k1 a ≠ k1 b) :=
        List.Pairwise.sublist
          (List.Sublist.append_left ((List.Sublist.refl T₂).cons t₀) T₁) hpairT
      have hwit' : ∀ t ∈ T₁ ++ T₂, ∃ s' ∈ src', k2 t = k2 s' := by
        intro t ht
        have htT : t ∈ T := by
          rw [hTeq]
          rcases List.mem_append.mp ht with h1 | h2
          · exact List.mem_append.mpr (Or.inl h1)
          · exact List.mem_append.mpr (Or.inr (List.mem_cons_of_mem t₀ h2))
        obtain ⟨s'', hs'', hk⟩ := hwit t htT
        rcases List.mem_cons.mp hs'' with rfl | hmem
        · exfalso
          have hPst : P s'' t = true := (hP s'' t).mpr hk
          rcases List.mem_append.mp ht with h1 | h2
          · rw [hT₁ t h1] at hPst
            cases hPst
          · have hk2t0 : k2 t₀ = k2 s'' := (hP s'' t₀).mp ht₀
            have hk1tt : k1 t = k1 t₀ := by
              rw [← hproj t, ← hproj t₀, hk, hk2t0]
            rcases List.pairwise_append.mp hpairT with ⟨-, hp2, -⟩
            rcases List.pairwise_cons.mp hp2 with ⟨ht₀T₂, -⟩
            exact ht₀T₂ t h2 hk1tt.symm
        · exact ⟨s'', hmem, hk⟩
      exact ih (T₁ ++ T₂) dst
        (fun s' hs' => hdisj s' (List.mem_cons_of_mem s hs')) hpair' hwit'
    · have hnone : ∀ t ∈ T, P s t = false := fun t ht =>
        Bool.eq_false_iff.mpr (fun htt => hex ⟨t, ht, htt⟩)
      rw [removeFirstBy_of_none _ _ hnone]
      have hwit' : ∀ t ∈ T, ∃ s' ∈ src', k2 t = k2 s' := by
        intro t ht
        obtain ⟨s'', hs'', hk⟩ := hwit t ht
        rcases List.mem_cons.mp hs'' with rfl | hmem
        · exfalso
          have hPst : P s'' t = true := (hP s'' t).mpr hk
          rw [hnone t ht] at hPst
          cases hPst
        · exact ⟨s'', hmem, hk⟩
      exact ih T dst (fun s' hs' => hdisj s' (List.mem_cons_of_mem s hs'))
        hpair hwit'

/-- Cancellation at the list level: merging a key-disjoint source into a
destination by an `add` primitive and then removing, per source element, the
first element with the same identity key restores the destination exactly. -/
theorem merge_subtract_cancel_list {α κ₁ κ₂ : Type} [DecidableEq κ₁]
    (k1 : α → κ₁) (k2 : α → κ₂) (proj : κ₂ → κ₁) (P : α → α → Bool)
    (fuse : α → α → α) (add : List α → α → List α)
    (hproj : ∀ x, proj (k2 x) = k1 x)
    (hfuse : ∀ y x, k1 y = k1 x → k2 (fuse y x) = k2 x)
    (hadd : ∀ x, (∀ l, add l x = l) ∨ (∀ l, add l x = upsert k1 fuse l x))
    (hP : ∀ s d, P s d = true ↔ k2 d = k2 s)
    (src dst : List α)
    (hdisj : ∀ s ∈ src, ∀ d ∈ dst, ¬ k1 s = k1 d) :
    List.foldl (fun acc s => removeFirstBy (P s) acc)
      (List.foldl add dst src) src = dst := by
  have hfk1 : ∀ y x, k1 y = k1 x → k1 (fuse y x) = k1 x := fun y x h => by
    rw [← hproj (fuse y x), hfuse y x h, hproj x]
  have hsplit : List.foldl add dst src = dst ++ List.foldl add [] src := by
    have hap := foldl_add_append k1 fuse add hadd src dst [] hdisj
    rw [List.append_nil] at hap
    exact hap
  rw [hsplit]
  apply foldl_remove_append k1 k2 proj P hproj hP src (List.foldl add [] src)
    dst hdisj
  · exact foldl_add_pairwise k1 fuse add hadd hfk1 src [] List.Pairwise.nil
  · intro t ht
    rcases foldl_add_mem_k2 k1 k2 fuse add hadd hfuse src [] t ht with
      ⟨t', ht', -⟩ | h
    · cases ht'
    · exact h

/-- Cancellation for the address list: key-disjoint merge then subtract by
`(address, plen)` identity restores the original list. -/
theorem cancel_addresses (A B : List NMPlatformIP4Address)
    (hdisj : ∀ s ∈ B, ∀ d ∈ A, ¬ s.address = d.address) :
    List.foldl
      (fun acc a => removeFirstBy
        (fun d => a.address == d.address && a.plen == d.plen) acc)
      (List.foldl address_add A B) B = A := by
  apply merge_subtract_cancel_list (fun a => a.address)
    (fun a => (a.address, a.plen)) Prod.fst
    (fun s d => s.address == d.address && s.plen == d.plen)
    fuseAddress address_add
  · intro x; rfl
  · intro y x _
    rw [Prod.mk.injEq]
    exact ⟨fuseAddress_address y x, fuseAddress_plen y x⟩
  · intro x
    exact Or.inr (fun l => rfl)
  · intro s d
    simp only [Bool.and_eq_true, beq_iff_eq, Prod.mk.injEq]
    constructor
    · rintro ⟨h1, h2⟩; exact ⟨h1.symm, h2.symm⟩
    · rintro ⟨h1, h2⟩; exact ⟨h1.symm, h2.symm⟩
  · exact hdisj

/-- Cancellation for the route list: key-disjoint merge then subtract by
`(network, plen)` identity restores the original list. -/
theorem cancel_routes (A B : List NMPlatformIP4Route)
    (hdisj : ∀ s ∈ B, ∀ d ∈ A, ¬ (s.network = d.network ∧ s.plen = d.plen)) :
    List.foldl
      (fun acc r => removeFirstBy
        (fun d => r.network == d.network && r.plen == d.plen) acc)
      (List.foldl route_add A B) B = A := by
  apply merge_subtract_cancel_list (fun r => (r.network, r.plen))
    (fun r => (r.network, r.plen)) id
    (fun s d => s.network == d.network && s.plen == d.plen)
    fuseRoute route_add
  · intro x; rfl
  · intro y x _
    exact fuseRoute_key y x
  · intro x
    by_cases h : 0 < x.plen
    · exact Or.inr (fun l => by rw [route_add, if_pos h])
    · exact Or.inl (fun l => by rw [route_add, if_neg h])
  · intro s d
    simp only [Bool.and_eq_true, beq_iff_eq, Prod.mk.injEq]
    constructor
    · rintro ⟨h1, h2⟩; exact ⟨h1.symm, h2.symm⟩
    · rintro ⟨h1, h2⟩; exact ⟨h1.symm, h2.symm⟩
  · intro s hs d hd heq
    exact hdisj s hs d hd ⟨congrArg Prod.fst heq, congrArg Prod.snd heq⟩

/-- Cancellation for the nameserver/WINS value lists (zero-guarded add). -/
theorem cancel_u32 (A B : List Nat) (hdisj : ∀ s ∈ B, s ∉ A) :
    List.foldl (fun acc n => removeFirstBy (fun d => d == n) acc)
      (List.foldl u32_list_add A B) B = A := by
  apply merge_subtract_cancel_list (fun v : Nat => v) (fun v : Nat => v) id
    (fun s d => d == s) (fun old _ => old) u32_list_add
  · intro x; rfl
  · intro y x h; exact h
  · intro x
    by_cases h : x = 0
    · exact Or.inl (fun l => by rw [u32_list_add, if_pos h])
    · exact Or.inr (fun l => by rw [u32_list_add, if_neg h])
  · intro s d; exact beq_iff_eq
  · intro s hs d hd heq
    apply hdisj s hs
    rw [heq]
    exact hd

/-- Cancellation for the NIS server list (unguarded add). -/
theorem cancel_nis (A B : List Nat) (hdisj : ∀ s ∈ B, s ∉ A) :
    List.foldl (fun acc n => removeFirstBy (fun d => d == n) acc)
      (List.foldl nis_list_add A B) B = A := by
  apply merge_subtract_cancel_list (fun v : Nat => v) (fun v : Nat => v) id
    (fun s d => d == s) (fun old _ => old) nis_list_add
  · intro x; rfl
  · intro y x h; exact h
  · intro x
    exact Or.inr (fun l => rfl)
  · intro s d; exact beq_iff_eq
  · intro s hs d hd heq
    apply hdisj s hs
    rw [heq]
    exact hd

/-- Cancellation for the domain/search string lists (empty-string guard). -/
theorem cancel_str (A B : List String) (hdisj : ∀ s ∈ B, s ∉ A) :
    List.foldl (fun acc x => removeFirstBy (fun d => d == x) acc)
      (List.foldl str_list_add A B) B = A := by
  apply merge_subtract_cancel_list (fun v : String => v) (fun v : String => v)
    id (fun s d => d == s) (fun old _ => old) str_list_add
  · intro x; rfl
  · intro y x h; exact h
  · intro x
    by_cases h : x = ""
    · exact Or.inl (fun l => by rw [str_list_add, if_pos h])
    · exact Or.inr (fun l => by rw [str_list_add, if_neg h])
  · intro s d; exact beq_iff_eq
  · intro s hs d hd heq
    apply hdisj s hs
    rw [heq]
    exact hd

/-- Counterexample to C6 as stated: with empty address sets and disjoint
gateways/MTU/MSS, `subtract` forces the gateway to zero (the "no addresses
left" rule), so the result is not `equal()` to `A`. -/
theorem claim_c6_counterexample :
    exC6A.gateway ≠ exC6B.gateway ∧ exC6A.mtu ≠ exC6B.mtu ∧
    exC6A.mss ≠ exC6B.mss ∧
    nm_ip4_config_equal
      (nm_ip4_config_subtract (nm_ip4_config_merge exC6A exC6B) exC6B)
      exC6A = false := by
  decide

/-- C6 amended: `subtract(merge(A,B), B)` is `equal()` to `A` when, beyond
the claimed disjoint gateways/MTU/MSS, the two aggregates are disjoint in
every hashed collection — B's address values collide with none of A's
addresses, B's route identities with none of A's routes, and B's
nameserver/domain/search/NIS/WINS values occur nowhere in A — B carries no
NIS domain, and A either retains an address or had no gateway (otherwise
`subtract` zeroes the gateway of an address-less result). -/
theorem claim_c6_amended (A B : NMIP4Config)
    (hgw : A.gateway ≠ B.gateway) (hmtu : A.mtu ≠ B.mtu)
    (hmss : A.mss ≠ B.mss)
    (haddr : ∀ s ∈ B.addresses, ∀ d ∈ A.addresses, ¬ s.address = d.address)
    (hroute : ∀ s ∈ B.routes, ∀ d ∈ A.routes,
      ¬ (s.network = d.network ∧ s.plen = d.plen))
    (hns : ∀ s ∈ B.nameservers, s ∉ A.nameservers)
    (hdom : ∀ s ∈ B.domains, s ∉ A.domains)
    (hsearch : ∀ s ∈ B.searches, s ∉ A.searches)
    (hnis : ∀ s ∈ B.nis, s ∉ A.nis)
    (hwins : ∀ s ∈ B.wins, s ∉ A.wins)
    (hnd : B.nis_domain = none)
    (haddrne : A.addresses ≠ [] ∨ A.gateway = 0) :
    nm_ip4_config_equal
      (nm_ip4_config_subtract (nm_ip4_config_merge A B) B) A = true := by
  have hfold : List.foldl
      (fun acc a => removeFirstBy
        (fun d => a.address == d.address && a.plen == d.plen) acc)
      (nm_ip4_config_merge A B).addresses B.addresses = A.addresses :=
    cancel_addresses A.addresses B.addresses haddr
  have hRaddr : (nm_ip4_config_subtract (nm_ip4_config_merge A B) B).addresses
      = A.addresses := hfold
  have hRroutes : (nm_ip4_config_subtract (nm_ip4_config_merge A B) B).routes
      = A.routes := cancel_routes A.routes B.routes hroute
  have hRns :
      (nm_ip4_config_subtract (nm_ip4_config_merge A B) B).nameservers
      = A.nameservers := cancel_u32 A.nameservers B.nameservers hns
  have hRdom : (nm_ip4_config_subtract (nm_ip4_config_merge A B) B).domains
      = A.domains := cancel_str A.domains B.domains hdom
  have hRsearch :
      (nm_ip4_config_subtract (nm_ip4_config_merge A B) B).searches
      = A.searches := cancel_str A.searches B.searches hsearch
  have hRnis : (nm_ip4_config_subtract (nm_ip4_config_merge A B) B).nis
      = A.nis := cancel_nis A.nis B.nis hnis
  have hRwins : (nm_ip4_config_subtract (nm_ip4_config_merge A B) B).wins
      = A.wins := cancel_u32 A.wins B.wins hwins
  have hMgw : (nm_ip4_config_merge A B).gateway =
      if A.gateway = 0 then B.gateway else A.gateway := rfl
  have hRgw : (nm_ip4_config_subtract (nm_ip4_config_merge A B) B).gateway
      = A.gateway := by
    show (if (List.foldl
        (fun acc a => removeFirstBy
          (fun d => a.address == d.address && a.plen == d.plen) acc)
        (nm_ip4_config_merge A B).addresses B.addresses).length = 0 then 0
      else if B.gateway = (nm_ip4_config_merge A B).gateway then 0
      else (nm_ip4_config_merge A B).gateway) = A.gateway
    rw [hfold, hMgw]
    by_cases hA0 : A.gateway = 0
    · rw [if_pos hA0, if_pos (rfl : B.gateway = B.gateway), ite_self]
      exact hA0.symm
    · rw [if_neg hA0]
      have hBA : ¬ B.gateway = A.gateway := fun h => hgw h.symm
      rw [if_neg hBA]
      have hne : A.addresses ≠ [] := by
        rcases haddrne with h | h
        · exact h
        · exact absurd h hA0
      have hlen : ¬ A.addresses.length = 0 :=
        fun h => hne (List.length_eq_zero.mp h)
      rw [if_neg hlen]
  have hMnd : (nm_ip4_config_merge A B).nis_domain = A.nis_domain := by
    show (if B.nis_domain.isSome then B.nis_domain else A.nis_domain)
      = A.nis_domain
    rw [hnd]
    rfl
  have hRnd :
      (nm_ip4_config_subtract (nm_ip4_config_merge A B) B).nis_domain
      = A.nis_domain := by
    show (if B.nis_domain = (nm_ip4_config_merge A B).nis_domain then none
      else (nm_ip4_config_merge A B).nis_domain) = A.nis_domain
    rw [hMnd, hnd]
    cases hA : A.nis_domain
    · simp
    · simp
  have hhash : nm_ip4_config_hash
      (nm_ip4_config_subtract (nm_ip4_config_merge A B) B)
      = nm_ip4_config_hash A := by
    unfold nm_ip4_config_hash
    rw [hRgw, hRaddr, hRroutes, hRnis, hRnd, hRns, hRwins, hRdom, hRsearch]
  show (nm_ip4_config_hash (nm_ip4_config_subtract (nm_ip4_config_merge A B) B)
      == nm_ip4_config_hash A) = true
  rw [hhash]
  simp

/-- Witness for C6 amended: two fully disjoint nontrivial aggregates cancel,
and the hypotheses are all satisfied at this input. -/
theorem claim_c6_amended_witness :
    exC6AW.gateway ≠ exC6BW.gateway ∧ exC6AW.mtu ≠ exC6BW.mtu ∧
    exC6AW.mss ≠ exC6BW.mss ∧
    nm_ip4_config_equal
      (nm_ip4_config_subtract (nm_ip4_config_merge exC6AW exC6BW) exC6BW)
      exC6AW = true :=
  ⟨by decide, by decide, by decide,
   claim_c6_amended exC6AW exC6BW (by decide) (by decide) (by decide)
     (by decide) (by decide) (by decide) (by decide) (by decide) (by decide)
     (by decide) (by decide) (by decide)⟩
